import Mathlib

/-!
Verification development for the buddy-bot message orchestration engine.

Shallow embedding of the Python sources:
  * `history.py`   — SQLite-backed store for turns and fallback context,
    modelled as a record of a turn list (insertion order = ascending id)
    and a fallback map keyed by chat id;
  * `buffer.py`    — per-chat message buffer (list of events plus a signal),
    modelled as atomic state-transition steps (the asyncio event loop runs
    each of `add`, `append` and the final drain section atomically);
  * `prompt.py`    — prompt assembly; the `datetime.now` clock read inside
    `_get_current_datetime` is made an explicit `now_str` input;
  * `bot.py`       — `split_message` chunking, with a fuel parameter making
    the `while` loop total (`none` = the loop never exits);
  * `retry.py`     — `retry_with_backoff`, with the attempt outcomes given
    as a function `Nat → Except E A` and sleeps recorded in a list;
  * `processor.py` — the `_call_with_tools` tool-use loop over an abstract
    backend `List Message → ApiResponse`;
  * `tools/registry.py` — tool dispatch with a JSON serialization model of
    Python's `json.dumps`;
  * `main.py`      — one cycle of `BuddyBot._processing_loop`, with the
    processing outcome (success/exception) as an explicit input.
-/

namespace BuddyBot

/-! ## Durable store (`history.py`) -/

/-- A row of the `turns` table; list position reflects the autoincrement id
order, so the list is in insertion order. -/
structure Row where
  chat_id : String
  user_text : String
  bot_response : String
  duration_ms : Option Int
  created_at : String
deriving Repr, DecidableEq

/-- A `Turn` as returned by `get_recent_turns` (`history.py`, `Turn`
dataclass). -/
structure Turn where
  user_text : String
  bot_response : String
  created_at : String
deriving Repr, DecidableEq

/-- The store state: the `turns` table plus the `fallback_context` table
(a finite map keyed by `chat_id`, modelled as a function). -/
structure Store where
  turns : List Row
  fallback : String → Option String

/-- `HistoryStore._save_turn_sync`: INSERT INTO turns. -/
def save_turn (s : Store) (chat_id user_text bot_response : String)
    (duration_ms : Option Int) (created_at : String) : Store :=
  { s with turns := s.turns ++ [⟨chat_id, user_text, bot_response, duration_ms, created_at⟩] }

/-- `HistoryStore._save_fallback_sync`: INSERT ... ON CONFLICT(chat_id)
DO UPDATE — an upsert on the fallback slot of `chat_id`. -/
def save_fallback (s : Store) (chat_id stdout : String) : Store :=
  { s with fallback := fun c => if c = chat_id then some stdout else s.fallback c }

/-- `HistoryStore._get_fallback_sync`: SELECT the row; when absent return
`None` issuing no further statement; when present DELETE the row and return
its `stdout`.  The third component records the chat ids of DELETE statements
issued. -/
def get_fallback (s : Store) (chat_id : String) :
    Option String × Store × List String :=
  match s.fallback chat_id with
  | none => (none, s, [])
  | some v =>
      (some v,
       { s with fallback := fun c => if c = chat_id then none else s.fallback c },
       [chat_id])

/-- `HistoryStore._clear_fallback_sync`: DELETE the fallback row. -/
def clear_fallback (s : Store) (chat_id : String) : Store :=
  { s with fallback := fun c => if c = chat_id then none else s.fallback c }

/-- Operations on the fallback slot, for trace-level statements. -/
inductive FOp where
  | save (chat_id stdout : String)
  | get (chat_id : String)
  | clear (chat_id : String)

/-- Number of `get` operations on chat `c₀` in the trace that return a value
(i.e. inject a fallback blob into a prompt). -/
def countHits (c₀ : String) : Store → List FOp → Nat
  | _, [] => 0
  | s, .save c v :: rest => countHits c₀ (save_fallback s c v) rest
  | s, .get c :: rest =>
      (if c = c₀ ∧ (get_fallback s c).1.isSome then 1 else 0)
        + countHits c₀ (get_fallback s c).2.1 rest
  | s, .clear c :: rest => countHits c₀ (clear_fallback s c) rest

/-- Number of `save` operations on chat `c₀` in the trace. -/
def countSaves (c₀ : String) : List FOp → Nat
  | [] => 0
  | FOp.save c _ :: rest => (if c = c₀ then 1 else 0) + countSaves c₀ rest
  | _ :: rest => countSaves c₀ rest

/-- The occupancy indicator of chat `c₀`'s fallback slot. -/
def slotFull (c₀ : String) (s : Store) : Nat :=
  if (s.fallback c₀).isSome then 1 else 0

theorem countHits_le_aux (c₀ : String) (ops : List FOp) :
    ∀ s : Store, countHits c₀ s ops ≤ countSaves c₀ ops + slotFull c₀ s := by
  induction ops with
  | nil => intro s; exact Nat.zero_le _
  | cons op rest ih =>
    intro s
    cases op with
    | save c v =>
      simp only [countHits, countSaves]
      by_cases hc : c = c₀
      · subst hc
        have h := ih (save_fallback s c v)
        have h2 : slotFull c (save_fallback s c v) = 1 := by
          simp [slotFull, save_fallback]
        rw [h2] at h
        have h3 : slotFull c s ≤ 1 := by unfold slotFull; split <;> omega
        rw [if_pos rfl]
        omega
      · have h := ih (save_fallback s c v)
        have h2 : slotFull c₀ (save_fallback s c v) = slotFull c₀ s := by
          have h' : ¬ c₀ = c := fun hh => hc hh.symm
          simp [slotFull, save_fallback, h']
        rw [h2] at h
        rw [if_neg hc]
        omega
    | get c =>
      cases hv : s.fallback c with
      | none =>
        have hres : (get_fallback s c).1 = none := by simp [get_fallback, hv]
        have hstep : (get_fallback s c).2.1 = s := by simp [get_fallback, hv]
        have h := ih s
        simp only [countHits, countSaves, hres, hstep]
        have hcond : ¬ (c = c₀ ∧ (Option.none : Option String).isSome = true) := by
          intro hh
          simp at hh
        rw [if_neg hcond]
        omega
      | some v =>
        have hres : (get_fallback s c).1 = some v := by simp [get_fallback, hv]
        have hstep : (get_fallback s c).2.1 =
            { s with fallback := fun x => if x = c then none else s.fallback x } := by
          simp [get_fallback, hv]
        have h := ih { s with fallback := fun x => if x = c then none else s.fallback x }
        simp only [countHits, countSaves, hres, hstep]
        by_cases hc : c = c₀
        · subst hc
          have h1 : slotFull c
              { s with fallback := fun x => if x = c then none else s.fallback x } = 0 := by
            simp [slotFull]
          have h2 : slotFull c s = 1 := by simp [slotFull, hv]
          rw [h1] at h
          rw [h2]
          have hcond : (c = c ∧ (Option.some v).isSome = true) := ⟨rfl, rfl⟩
          rw [if_pos hcond]
          omega
        · have h1 : slotFull c₀
              { s with fallback := fun x => if x = c then none else s.fallback x } =
              slotFull c₀ s := by
            have h' : ¬ c₀ = c := fun hh => hc hh.symm
            simp [slotFull, h']
          rw [h1] at h
          have hcond : ¬ (c = c₀ ∧ (Option.some v).isSome = true) := fun hh => hc hh.1
          rw [if_neg hcond]
          omega
    | clear c =>
      simp only [countHits, countSaves]
      have h := ih (clear_fallback s c)
      have h1 : slotFull c₀ (clear_fallback s c) ≤ slotFull c₀ s := by
        by_cases hc : c₀ = c
        · subst hc
          have h0 : slotFull c₀ (clear_fallback s c₀) = 0 := by
            simp [slotFull, clear_fallback]
          rw [h0]
          exact Nat.zero_le _
        · have h0 : slotFull c₀ (clear_fallback s c) = slotFull c₀ s := by
            simp [slotFull, clear_fallback, hc]
          rw [h0]
      omega

/-- Claim C2: fallback context is consumed on read.  After
`save_fallback(chat_id, v)` the first `get_fallback(chat_id)` returns `v`
and the second returns `None`; a second `save_fallback(chat_id, v₂)` before
any read overwrites, so the next `get_fallback` returns `v₂`; and along any
trace of save/get/clear operations, the number of `get` calls on a chat that
return a value (each corresponding to one prompt injection) never exceeds
the number of `save` calls on that chat plus one for an initially occupied
slot — so each stored fallback is injected into at most one subsequent
prompt. -/
theorem fallback_consume_on_read (s : Store) (chat_id v v₂ : String)
    (c₀ : String) (ops : List FOp) :
    (get_fallback (save_fallback s chat_id v) chat_id).1 = some v ∧
    (get_fallback (get_fallback (save_fallback s chat_id v) chat_id).2.1 chat_id).1 = none ∧
    (get_fallback (save_fallback (save_fallback s chat_id v) chat_id v₂) chat_id).1 = some v₂ ∧
    countHits c₀ s ops ≤ countSaves c₀ ops + slotFull c₀ s := by
  refine ⟨?_, ?_, ?_, countHits_le_aux c₀ ops s⟩
  · simp [get_fallback, save_fallback]
  · simp [get_fallback, save_fallback]
  · simp [get_fallback, save_fallback]

/-- Claim C10: for a chat with no stored fallback record, `get_fallback`
returns `None`, issues no DELETE statement, and leaves the store (all
fallback records of every chat and all turns) completely unchanged. -/
theorem get_fallback_frame (s : Store) (chat_id : String)
    (h : s.fallback chat_id = none) :
    get_fallback s chat_id = (none, s, []) := by
  simp [get_fallback, h]

/-- Witness for C10 at a concrete store. -/
theorem get_fallback_frame_witness :
    get_fallback ⟨[], fun _ => none⟩ "42" = (none, ⟨[], fun _ => none⟩, []) :=
  get_fallback_frame ⟨[], fun _ => none⟩ "42" rfl

/-! ## Recent turns (`history.py`, `_get_recent_turns_sync`) -/

/-- Python string slicing `s[:n]` for a natural bound `n`. -/
def pyTake (s : String) (n : Nat) : String :=
  ⟨s.data.take n⟩

/-- Row-to-`Turn` conversion performed on read: each text field is sliced to
`max_chars` characters. -/
def truncTurn (maxChars : Nat) (r : Row) : Turn :=
  ⟨pyTake r.user_text maxChars, pyTake r.bot_response maxChars, r.created_at⟩

/-- `HistoryStore._get_recent_turns_sync`: SELECT the rows of `chat_id`
ORDER BY id DESC LIMIT `limit`, then build the `Turn` list from
`reversed(rows)` truncating each field. -/
def get_recent_turns (s : Store) (chat_id : String) (limit maxChars : Nat) :
    List Turn :=
  (((s.turns.filter (fun r => r.chat_id = chat_id)).reverse.take limit).reverse).map
    (truncTurn maxChars)

theorem pyTake_length (s : String) (n : Nat) :
    (pyTake s n).length = min n s.length := by
  show (s.data.take n).length = min n s.data.length
  exact List.length_take n s.data

theorem take_reverse_reverse_suffix (l : List α) (n : Nat) :
    List.IsSuffix ((l.reverse.take n).reverse) l := by
  refine ⟨(l.reverse.drop n).reverse, ?_⟩
  rw [← List.reverse_append, List.take_append_drop, List.reverse_reverse]

/-- Claim C6: `recent_turns(chat_id, N)` returns at most `N` turns — exactly
the most recently inserted `min N (#rows of the chat)` of them, in
oldest-first order (a suffix of the chat's full truncated turn sequence) —
and each over-long stored text field comes back truncated to length exactly
`max_chars`. -/
theorem recent_turns_spec (s : Store) (chat : String) (limit maxChars : Nat) :
    (get_recent_turns s chat limit maxChars).length ≤ limit ∧
    (get_recent_turns s chat limit maxChars).length =
      min limit (s.turns.filter (fun r => r.chat_id = chat)).length ∧
    List.IsSuffix (get_recent_turns s chat limit maxChars)
      ((s.turns.filter (fun r => r.chat_id = chat)).map (truncTurn maxChars)) ∧
    (∀ t ∈ get_recent_turns s chat limit maxChars,
      t.user_text.length ≤ maxChars ∧ t.bot_response.length ≤ maxChars) ∧
    (∀ r : Row, maxChars < r.user_text.length →
      (truncTurn maxChars r).user_text.length = maxChars) ∧
    (∀ r : Row, maxChars < r.bot_response.length →
      (truncTurn maxChars r).bot_response.length = maxChars) := by
  refine ⟨?_, ?_, ?_, ?_, ?_, ?_⟩
  · simp only [get_recent_turns, List.length_map, List.length_reverse,
      List.length_take]
    exact Nat.min_le_left _ _
  · simp only [get_recent_turns, List.length_map, List.length_reverse,
      List.length_take]
  · obtain ⟨t, ht⟩ := take_reverse_reverse_suffix
      (s.turns.filter (fun r => r.chat_id = chat)) limit
    refine ⟨t.map (truncTurn maxChars), ?_⟩
    simp only [get_recent_turns]
    rw [← List.map_append, ht]
  · intro t htm
    simp only [get_recent_turns, List.mem_map] at htm
    obtain ⟨r, _, hr⟩ := htm
    subst hr
    constructor
    · rw [truncTurn, pyTake_length]
      exact Nat.min_le_left _ _
    · rw [truncTurn, pyTake_length]
      exact Nat.min_le_left _ _
  · intro r hr
    rw [truncTurn, pyTake_length]
    omega
  · intro r hr
    rw [truncTurn, pyTake_length]
    omega

/-- Witness for C6 at a concrete store: two rows for chat "7", one for chat
"8", limit 1, `max_chars` 3; the long stored text comes back with length
exactly 3. -/
theorem recent_turns_spec_witness :
    (get_recent_turns
        ⟨[⟨"7", "hello", "world", none, "t1"⟩,
          ⟨"8", "x", "y", none, "t2"⟩,
          ⟨"7", "abcdef", "ok", none, "t3"⟩], fun _ => none⟩
        "7" 1 3).length ≤ 1 ∧
    (truncTurn 3 ⟨"7", "abcdef", "ok", none, "t3"⟩).user_text.length = 3 := by
  have h := recent_turns_spec
    ⟨[⟨"7", "hello", "world", none, "t1"⟩,
      ⟨"8", "x", "y", none, "t2"⟩,
      ⟨"7", "abcdef", "ok", none, "t3"⟩], fun _ => none⟩
    "7" 1 3
  exact ⟨h.1, h.2.2.2.2.1 ⟨"7", "abcdef", "ok", none, "t3"⟩ (by decide)⟩

/-! ## Per-chat message buffer (`buffer.py`) -/

/-- The buffer state: the ordered event list and the signal flag of
`asyncio.Event`.  `add`, `append` and the final take-and-clear section of
`wait_and_drain` each run atomically on the single-threaded event loop, so
they are modelled as atomic state transitions. -/
structure MessageBuffer (α : Type) where
  events : List α
  signal : Bool
deriving Repr, DecidableEq

/-- `MessageBuffer.add`: append one event and set the signal. -/
def MessageBuffer.add (b : MessageBuffer α) (e : α) : MessageBuffer α :=
  ⟨b.events ++ [e], true⟩

/-- `MessageBuffer.append`: re-queue a list of events; the signal is set
only when the list is non-empty. -/
def MessageBuffer.append (b : MessageBuffer α) (l : List α) : MessageBuffer α :=
  ⟨b.events ++ l, if l.isEmpty then b.signal else true⟩

/-- The atomic drain section at the end of `MessageBuffer.wait_and_drain`:
copy the list, clear it, clear the signal, return the copy. -/
def MessageBuffer.drain (b : MessageBuffer α) : List α × MessageBuffer α :=
  (b.events, ⟨[], false⟩)

/-- `MessageBuffer.is_empty`. -/
def MessageBuffer.is_empty (b : MessageBuffer α) : Bool :=
  b.events.isEmpty

/-- An interleaving of buffer operations (drain stands for one completed
`wait_and_drain`). -/
inductive BufOp (α : Type) where
  | add (e : α)
  | append (l : List α)
  | drain

/-- The events fed into the buffer by one operation. -/
def bufInput : BufOp α → List α
  | .add e => [e]
  | .append l => l
  | .drain => []

/-- Run a trace of buffer operations; returns the final buffer and the
drained batches in order. -/
def bufRun : MessageBuffer α → List (BufOp α) → MessageBuffer α × List (List α)
  | b, [] => (b, [])
  | b, .add e :: rest => bufRun (b.add e) rest
  | b, .append l :: rest => bufRun (b.append l) rest
  | b, .drain :: rest =>
      let p := bufRun (b.drain).2 rest
      (p.1, (b.drain).1 :: p.2)

theorem bufRun_conservation (ops : List (BufOp α)) :
    ∀ b : MessageBuffer α,
      ((bufRun b ops).2.flatten) ++ (bufRun b ops).1.events
        = b.events ++ (ops.map bufInput).flatten := by
  induction ops with
  | nil => intro b; simp [bufRun]
  | cons op rest ih =>
    intro b
    cases op with
    | add e =>
      have h := ih (b.add e)
      simp only [bufRun, List.map_cons, List.flatten_cons, bufInput] at h ⊢
      rw [h]
      simp [MessageBuffer.add]
    | append l =>
      have h := ih (b.append l)
      simp only [bufRun, List.map_cons, List.flatten_cons, bufInput] at h ⊢
      rw [h]
      simp [MessageBuffer.append]
    | drain =>
      have h := ih (b.drain).2
      simp only [bufRun, List.map_cons, List.flatten_cons, bufInput,
        MessageBuffer.drain, List.nil_append] at h ⊢
      rw [List.append_assoc, h]

/-- Claim C8: every event passed to `add` or `append` is delivered in
exactly one drained batch with insertion order preserved (conservation: the
concatenation of all batches followed by the residual buffer equals the
initial contents followed by all inputs in order), and right after a drain
the buffer is empty and stays empty under `append []`, while any `add` or
non-empty `append` makes it non-empty. -/
theorem buffer_delivery_spec {α : Type} (ops : List (BufOp α))
    (b : MessageBuffer α) (sig : Bool) (e : α) (l : List α) :
    ((bufRun b ops).2.flatten) ++ (bufRun b ops).1.events
        = b.events ++ (ops.map bufInput).flatten ∧
    (b.drain).2.is_empty = true ∧
    ((⟨[], sig⟩ : MessageBuffer α).append []).is_empty = true ∧
    ((⟨[], sig⟩ : MessageBuffer α).add e).is_empty = false ∧
    ((⟨[], sig⟩ : MessageBuffer α).append (e :: l)).is_empty = false := by
  refine ⟨bufRun_conservation ops b, rfl, rfl, ?_, ?_⟩
  · simp [MessageBuffer.add, MessageBuffer.is_empty]
  · simp [MessageBuffer.append, MessageBuffer.is_empty]

/-! ## JSON serialization model (Python `json.dumps`) -/

/-- `", ".join(...)` / `"\n".join(...)`: Python `str.join` semantics. -/
def joinSep (sep : String) : List String → String
  | [] => ""
  | [x] => x
  | x :: y :: xs => x ++ sep ++ joinSep sep (y :: xs)

/-- Lowercase hex digit: 0-9 then a-f, by code point. -/
def hexDigitChar (n : Nat) : Char :=
  if n < 10 then Char.ofNat (48 + n) else Char.ofNat (87 + n)

/-- Four lowercase hex digits. -/
def hex4 (n : Nat) : List Char :=
  [hexDigitChar (n / 4096 % 16), hexDigitChar (n / 256 % 16),
   hexDigitChar (n / 16 % 16), hexDigitChar (n % 16)]

/-- A `\uXXXX` escape (with a surrogate pair beyond the BMP), as produced by
`json.dumps` with its default `ensure_ascii=True`. -/
def uEsc (n : Nat) : List Char :=
  if n < 65536 then '\\' :: 'u' :: hex4 n
  else
    ('\\' :: 'u' :: hex4 (55296 + (n - 65536) / 1024))
      ++ ('\\' :: 'u' :: hex4 (56320 + (n - 65536) % 1024))

/-- JSON string escaping of one character, per `json.dumps` defaults. -/
def escChar (c : Char) : List Char :=
  if c = '"' then ['\\', '"']
  else if c = '\\' then ['\\', '\\']
  else if c = '\n' then ['\\', 'n']
  else if c = '\r' then ['\\', 'r']
  else if c = '\t' then ['\\', 't']
  else if c.toNat = 8 then ['\\', 'b']
  else if c.toNat = 12 then ['\\', 'f']
  else if c.toNat < 32 ∨ 126 < c.toNat then uEsc c.toNat
  else [c]

/-- JSON string escaping per `json.dumps` defaults. -/
def jsonEscape (s : String) : String :=
  ⟨s.data.flatMap escChar⟩

theorem jsonEscape_append (a b : String) :
    jsonEscape (a ++ b) = jsonEscape a ++ jsonEscape b := by
  refine String.ext ?_
  show ((a ++ b).data.flatMap escChar) = _
  simp [String.data_append, jsonEscape]

/-- JSON values (no floats appear in the modelled code paths). -/
inductive Json where
  | null
  | bool (b : Bool)
  | num (n : Int)
  | str (s : String)
  | arr (xs : List Json)
  | obj (kvs : List (String × Json))
deriving Repr, BEq

mutual

/-- `json.dumps` with default separators (`", "` between items, `": "`
after keys). -/
def jsonDumps : Json → String
  | .null => "null"
  | .bool true => "true"
  | .bool false => "false"
  | .num n => toString n
  | .str s => "\"" ++ jsonEscape s ++ "\""
  | .arr xs => "[" ++ joinSep ", " (jsonDumpsArr xs) ++ "]"
  | .obj kvs => "\x7b" ++ joinSep ", " (jsonDumpsObj kvs) ++ "\x7d"

/-- Serialized array elements, in order. -/
def jsonDumpsArr : List Json → List String
  | [] => []
  | j :: js => jsonDumps j :: jsonDumpsArr js

/-- Serialized `"key": value` members, in order. -/
def jsonDumpsObj : List (String × Json) → List String
  | [] => []
  | (k, v) :: kvs => ("\"" ++ jsonEscape k ++ "\": " ++ jsonDumps v) :: jsonDumpsObj kvs

end

/-! ## Prompt assembly (`prompt.py`) -/

/-- One normalized incoming message, as consumed by `build_prompt`
(`e.get("text", "")`, `e.get("from", "")`, `e.get("timestamp", "")` — the
record carries the already-defaulted values). -/
structure Event where
  text : String
  fromName : String
  timestamp : String
deriving Repr, DecidableEq

/-- One element of `json.dumps(event_items, indent=2)`. -/
def eventItem (e : Event) : String :=
  "  \x7b\n    \"text\": \"" ++ jsonEscape e.text
    ++ "\",\n    \"from\": \"" ++ jsonEscape e.fromName
    ++ "\",\n    \"timestamp\": \"" ++ jsonEscape e.timestamp
    ++ "\"\n  \x7d"

/-- `json.dumps(event_items, indent=2)` for the three-key event dicts built
in `build_prompt`. -/
def dumpsEvents : List Event → String
  | [] => "[]"
  | es => "[\n" ++ joinSep ",\n" (es.map eventItem) ++ "\n]"

/-- The `SYSTEM_CONTEXT` constant of `prompt.py`. -/
def SYSTEM_CONTEXT : String :=
  "You are a persistent personal assistant communicating with your user via Telegram.\nYou maintain conversation continuity using the Graphiti knowledge graph (via MCP tools).\n\nAt the start of each interaction, retrieve recent episodes and relevant facts.\nAfter responding, save an episode summarizing this interaction.\nIf no episodes or facts are found, this is your first conversation — introduce\nyourself naturally and learn about your user.\n\nRESPONSE RULES:\n- Your stdout is sent directly as a Telegram message.\n- Output ONLY the message text. No internal reasoning or meta-commentary.\n- Keep responses concise and conversational.\n- Use Telegram-compatible formatting (bold, italic, code) sparingly.\n- You MUST produce a text response for every interaction.\n- Do NOT use any file, bash, or code-editing tools. Only use MCP tools."

/-- The `RETRIEVAL_INSTRUCTIONS` constant of `prompt.py`. -/
def RETRIEVAL_INSTRUCTIONS : String :=
  "Before responding, follow these steps IN ORDER:\n\nStep 1 — Retrieve context:\n1. Call get_episodes(group_ids=[\"main\"], max_episodes=5) for recent conversation context\n2. Call search_memory_facts(query=\"pending items, open tasks\", group_ids=[\"main\"])\n3. You may call search_memory_facts or search_nodes with other queries based on the message\n\nStep 2 — Respond to the user\x27s message using the retrieved context\n\nStep 3 — Save memory:\nCall add_memory with a free-form text summary of: what the user said, what you\nresponded, what actions you took, and any pending items.\nUse group_id=\"main\", source=\"text\", and a descriptive name."

/-- `build_prompt` of `prompt.py`.  The call
`_get_current_datetime(timezone)` reads the wall clock; that read is made
explicit as the `now_str` argument (the ISO string it returned), so the
embedding is a function; `tz` itself is consumed only by that clock read. -/
def build_prompt (chat_id : String) (history_turns : List Turn)
    (events : List Event) (fallback_text : Option String)
    (tz : String) (now_str : String) : String :=
  joinSep "\n\n"
    ([SYSTEM_CONTEXT,
      "The current date and time is: " ++ now_str,
      "The user\x27s chat_id is: " ++ chat_id]
     ++ (if history_turns.isEmpty then []
         else [joinSep "\n"
           ("Recent conversation:" ::
             history_turns.flatMap (fun t =>
               ["User: " ++ t.user_text, "Assistant: " ++ t.bot_response]))])
     ++ [RETRIEVAL_INSTRUCTIONS,
         "New message(s) from the user:\n" ++ dumpsEvents events]
     ++ (match fallback_text with
         | none => []
         | some f =>
             if f = "" then []
             else ["Previous interaction context (retry after failure):\n" ++ f]))

set_option maxRecDepth 20000 in
/-- Counterexample to claim C1 as stated: with all five listed inputs
(chat_id, history, events, fallback, timezone) held fixed, two calls whose
clock reads differ return different prompt strings, so `build_prompt` is
not a function of those five inputs alone. -/
theorem build_prompt_clock_dependent :
    build_prompt "1" [] [] none "UTC" "2026-01-01T00:00:00+00:00" ≠
    build_prompt "1" [] [] none "UTC" "2026-01-02T00:00:00+00:00" := by
  decide

/-- Claim C1 (amended): `build_prompt` is deterministic in its inputs
provided the current-datetime clock read is counted among them — two calls
with equal chat_id, history, events, fallback, timezone and equal clock
reads return equal strings; apart from the clock (and timezone-database)
read inside `_get_current_datetime`, the function performs no I/O. -/
theorem build_prompt_deterministic (chat_id : String) (h : List Turn)
    (e : List Event) (fb : Option String) (tz now₁ now₂ : String)
    (hn : now₁ = now₂) :
    build_prompt chat_id h e fb tz now₁ = build_prompt chat_id h e fb tz now₂ := by
  rw [hn]

/-- Witness for the amended C1 at concrete inputs. -/
theorem build_prompt_deterministic_witness :
    build_prompt "1" [⟨"hi", "hello", "t"⟩] [⟨"x", "A", "ts"⟩] (some "fb") "UTC" "T"
      = build_prompt "1" [⟨"hi", "hello", "t"⟩] [⟨"x", "A", "ts"⟩] (some "fb") "UTC" "T" :=
  build_prompt_deterministic "1" [⟨"hi", "hello", "t"⟩] [⟨"x", "A", "ts"⟩]
    (some "fb") "UTC" "T" "T" rfl

/-! ## Tool registry and dispatch (`tools/registry.py`) -/

/-- What a handler coroutine produces: either a string (returned unchanged)
or structured data (JSON-serialized by `dispatch`). -/
inductive HandlerResult where
  | str (s : String)
  | structured (j : Json)

/-- A handler either returns a result or raises; `error m` carries `str(e)`
for the raised exception `e`. -/
def ToolHandler : Type := Json → Except String HandlerResult

/-- The registry as consulted by `dispatch`: `self._tools.get(name)`,
reduced to the handler (the only field `dispatch` uses). -/
def ToolRegistry : Type := String → Option ToolHandler

/-- `ToolRegistry.dispatch` of `tools/registry.py`. -/
def dispatch (reg : ToolRegistry) (name : String) (input : Json) : String :=
  match reg name with
  | none => jsonDumps (Json.obj [("error", Json.str ("Unknown tool: " ++ name))])
  | some handler =>
      match handler input with
      | .ok (.str s) => s
      | .ok (.structured j) => jsonDumps j
      | .error m =>
          jsonDumps (Json.obj [("error", Json.str ("Tool " ++ name ++ " failed: " ++ m))])

/-- Claim C7: `dispatch` always returns a string and never propagates a
handler exception — unknown names yield the JSON envelope
`{"error": "Unknown tool: <name>"}`, a raising handler yields
`{"error": "Tool <name> failed: <msg>"}`, a string result is returned
unchanged and a structured result is JSON-serialized (the `<...>` parts
below appear JSON-escaped, as `json.dumps` prints them). -/
theorem dispatch_spec (reg : ToolRegistry) (name : String) (input : Json) :
    (reg name = none →
      dispatch reg name input =
        "\x7b" ++ "\"" ++ "error" ++ "\": " ++ "\"" ++ "Unknown tool: "
          ++ jsonEscape name ++ "\"" ++ "\x7d") ∧
    (∀ (h : ToolHandler) (m : String), reg name = some h → h input = .error m →
      dispatch reg name input =
        "\x7b" ++ "\"" ++ "error" ++ "\": " ++ "\"" ++ "Tool " ++ jsonEscape name
          ++ " failed: " ++ jsonEscape m ++ "\"" ++ "\x7d") ∧
    (∀ (h : ToolHandler) (s : String), reg name = some h → h input = .ok (.str s) →
      dispatch reg name input = s) ∧
    (∀ (h : ToolHandler) (j : Json), reg name = some h → h input = .ok (.structured j) →
      dispatch reg name input = jsonDumps j) := by
  refine ⟨?_, ?_, ?_, ?_⟩
  · intro hreg
    simp only [dispatch, hreg]
    rw [show ("Unknown tool: " ++ name) = "Unknown tool: " ++ name from rfl]
    simp only [jsonDumps, jsonDumpsObj, joinSep, jsonEscape_append]
    rw [show jsonEscape "error" = "error" from by decide,
      show jsonEscape "Unknown tool: " = "Unknown tool: " from by decide]
    refine String.ext ?_
    simp [List.append_assoc]
  · intro h m hreg hrun
    simp only [dispatch, hreg, hrun]
    simp only [jsonDumps, jsonDumpsObj, joinSep, jsonEscape_append]
    rw [show jsonEscape "error" = "error" from by decide,
      show jsonEscape "Tool " = "Tool " from by decide,
      show jsonEscape " failed: " = " failed: " from by decide]
    refine String.ext ?_
    simp [List.append_assoc]
  · intro h s hreg hrun
    simp only [dispatch, hreg, hrun]
  · intro h j hreg hrun
    simp only [dispatch, hreg, hrun]

/-- A small registry for the C7 witness. -/
def demoRegistry : ToolRegistry := fun name =>
  match name with
  | "echo" => some (fun j => .ok (.structured j))
  | "boom" => some (fun _ => .error "kaput")
  | "id" => some (fun _ => .ok (.str "plain"))
  | _ => none

/-- Witness for C7 at four concrete calls. -/
theorem dispatch_spec_witness :
    dispatch demoRegistry "nope" Json.null = "\x7b\"error\": \"Unknown tool: nope\"\x7d" ∧
    dispatch demoRegistry "boom" Json.null = "\x7b\"error\": \"Tool boom failed: kaput\"\x7d" ∧
    dispatch demoRegistry "id" Json.null = "plain" ∧
    dispatch demoRegistry "echo" (Json.arr [Json.num 1]) = jsonDumps (Json.arr [Json.num 1]) := by
  refine ⟨?_, ?_, ?_, ?_⟩
  · rw [(dispatch_spec demoRegistry "nope" Json.null).1 rfl]
    decide
  · rw [(dispatch_spec demoRegistry "boom" Json.null).2.1
      (fun _ => .error "kaput") "kaput" rfl rfl]
    decide
  · exact (dispatch_spec demoRegistry "id" Json.null).2.2.1
      (fun _ => .ok (.str "plain")) "plain" rfl rfl
  · exact (dispatch_spec demoRegistry "echo" (Json.arr [Json.num 1])).2.2.2
      (fun j => .ok (.structured j)) (Json.arr [Json.num 1]) rfl rfl

/-! ## LLM tool-use loop (`processor.py`, `_call_with_tools`) -/

/-- A content block of an API response. -/
inductive Block where
  | text (s : String)
  | tool_use (id name : String) (input : Json)

/-- One API response: content blocks and a stop reason. -/
structure ApiResponse where
  content : List Block
  stop_reason : String

/-- Message content as accumulated by the loop. -/
inductive MsgContent where
  | userText (s : String)
  | assistantBlocks (bs : List Block)
  | toolResults (rs : List (String × String))

/-- One entry of the `messages` list. -/
structure Message where
  role : String
  content : MsgContent

/-- The text fragments of a response, in content order. -/
def textsOf (r : ApiResponse) : List String :=
  r.content.filterMap fun b => match b with
    | .text s => some s
    | _ => none

/-- The tool-use blocks of a response as `(id, name, input)`, in content
order. -/
def toolUsesOf (r : ApiResponse) : List (String × String × Json) :=
  r.content.filterMap fun b => match b with
    | .tool_use i n inp => some (i, n, inp)
    | _ => none

/-- The loop's continuation step: append the assistant message (full
content) and a single user message with one `tool_result` per tool-use
block, in order. -/
def stepMessages (reg : ToolRegistry) (r : ApiResponse) (msgs : List Message) :
    List Message :=
  msgs ++ [⟨"assistant", .assistantBlocks r.content⟩,
           ⟨"user", .toolResults ((toolUsesOf r).map
             (fun t => (t.1, dispatch reg t.2.1 t.2.2)))⟩]

/-- The guard under which a round returns: no tool-use blocks, or
`stop_reason == "end_turn"`. -/
def endsRound (r : ApiResponse) : Prop :=
  (toolUsesOf r).isEmpty = true ∨ r.stop_reason = "end_turn"

instance (r : ApiResponse) : Decidable (endsRound r) := by
  unfold endsRound
  infer_instance

/-- `MAX_TOOL_ROUNDS` of `processor.py`. -/
def MAX_TOOL_ROUNDS : Nat := 20

/-- The `for round_num in range(MAX_TOOL_ROUNDS)` loop of
`_call_with_tools`; `fuel` is the number of rounds left and `lastTexts` the
`text_parts` variable of the enclosing scope (after the loop it holds the
final round's fragments, which the fuel-0 case returns). -/
def callWithToolsLoop (backend : List Message → ApiResponse) (reg : ToolRegistry) :
    Nat → List Message → List String → String
  | 0, _, lastTexts =>
      if lastTexts.isEmpty then "(max tool rounds reached)"
      else joinSep "\n" lastTexts
  | fuel+1, msgs, _ =>
      let r := backend msgs
      if endsRound r then
        if (textsOf r).isEmpty then "(no response)" else joinSep "\n" (textsOf r)
      else
        callWithToolsLoop backend reg fuel (stepMessages reg r msgs) (textsOf r)

/-- `_call_with_tools`: run the loop for `MAX_TOOL_ROUNDS` rounds. -/
def call_with_tools (backend : List Message → ApiResponse) (reg : ToolRegistry)
    (messages : List Message) : String :=
  callWithToolsLoop backend reg MAX_TOOL_ROUNDS messages []

/-- The message list entering round `k` (0-based) when every earlier round
continued. -/
def msgsAt (backend : List Message → ApiResponse) (reg : ToolRegistry)
    (msgs0 : List Message) : Nat → List Message
  | 0 => msgs0
  | k+1 => stepMessages reg (backend (msgsAt backend reg msgs0 k))
      (msgsAt backend reg msgs0 k)

theorem msgsAt_shift (backend : List Message → ApiResponse) (reg : ToolRegistry)
    (msgs0 : List Message) (j : Nat) :
    msgsAt backend reg (stepMessages reg (backend msgs0) msgs0) j =
      msgsAt backend reg msgs0 (j+1) := by
  induction j with
  | zero => rfl
  | succ k ih => simp only [msgsAt, ih]

theorem loop_returns_now (backend : List Message → ApiResponse)
    (reg : ToolRegistry) (msgs : List Message) (l : List String) (n : Nat)
    (h : endsRound (backend msgs)) :
    callWithToolsLoop backend reg (n+1) msgs l =
      if (textsOf (backend msgs)).isEmpty then "(no response)"
      else joinSep "\n" (textsOf (backend msgs)) := by
  simp only [callWithToolsLoop]
  rw [if_pos h]

theorem loop_continue (backend : List Message → ApiResponse)
    (reg : ToolRegistry) (msgs : List Message) (l : List String) (fuel : Nat)
    (h : ¬ endsRound (backend msgs)) :
    callWithToolsLoop backend reg (fuel+1) msgs l =
      callWithToolsLoop backend reg fuel
        (stepMessages reg (backend msgs) msgs) (textsOf (backend msgs)) := by
  simp only [callWithToolsLoop]
  rw [if_neg h]

theorem loop_hits_limit (backend : List Message → ApiResponse)
    (reg : ToolRegistry) :
    ∀ (k : Nat) (msgs0 : List Message) (l : List String),
    (∀ j, j < k + 1 → ¬ endsRound (backend (msgsAt backend reg msgs0 j))) →
    callWithToolsLoop backend reg (k+1) msgs0 l =
      if (textsOf (backend (msgsAt backend reg msgs0 k))).isEmpty
      then "(max tool rounds reached)"
      else joinSep "\n" (textsOf (backend (msgsAt backend reg msgs0 k))) := by
  intro k
  induction k with
  | zero =>
    intro msgs0 l hall
    have h0 : ¬ endsRound (backend msgs0) := hall 0 (by omega)
    rw [loop_continue backend reg msgs0 l 0 h0]
    rfl
  | succ k ih =>
    intro msgs0 l hall
    have h0 : ¬ endsRound (backend msgs0) := hall 0 (by omega)
    rw [loop_continue backend reg msgs0 l (k+1) h0]
    have hall' : ∀ j, j < k + 1 →
        ¬ endsRound (backend (msgsAt backend reg
          (stepMessages reg (backend msgs0) msgs0) j)) := by
      intro j hj
      rw [msgsAt_shift]
      exact hall (j+1) (by omega)
    rw [ih (stepMessages reg (backend msgs0) msgs0) (textsOf (backend msgs0)) hall',
      msgsAt_shift]

/-- Claim C4: whenever a backend response has no tool-use blocks or has
`stop_reason == "end_turn"`, the loop returns that response's text
fragments newline-joined (or `"(no response)"` when there are none); and
when every one of the `MAX_TOOL_ROUNDS` responses keeps the loop going, it
returns the final round's accumulated text fragments newline-joined (or
`"(max tool rounds reached)"` when there are none). -/
theorem call_with_tools_spec (backend : List Message → ApiResponse)
    (reg : ToolRegistry) :
    (∀ (msgs : List Message) (l : List String) (n : Nat),
      endsRound (backend msgs) →
      callWithToolsLoop backend reg (n+1) msgs l =
        if (textsOf (backend msgs)).isEmpty then "(no response)"
        else joinSep "\n" (textsOf (backend msgs))) ∧
    (∀ msgs0 : List Message,
      (∀ j, j < MAX_TOOL_ROUNDS → ¬ endsRound (backend (msgsAt backend reg msgs0 j))) →
      call_with_tools backend reg msgs0 =
        if (textsOf (backend (msgsAt backend reg msgs0 19))).isEmpty
        then "(max tool rounds reached)"
        else joinSep "\n" (textsOf (backend (msgsAt backend reg msgs0 19)))) := by
  constructor
  · intro msgs l n h
    exact loop_returns_now backend reg msgs l n h
  · intro msgs0 hall
    exact loop_hits_limit backend reg 19 msgs0 [] hall

/-- A backend that ends immediately with one text block. -/
def demoBackendEnd : List Message → ApiResponse :=
  fun _ => ⟨[Block.text "hi"], "end_turn"⟩

/-- A backend that always asks for a tool and never ends. -/
def demoBackendTool : List Message → ApiResponse :=
  fun _ => ⟨[Block.text "t", Block.tool_use "i1" "x" Json.null], "tool_use"⟩

/-- The empty registry. -/
def emptyRegistry : ToolRegistry := fun _ => none

/-- Witness for C4: the ending backend returns its text in one round; the
never-ending backend exhausts all 20 rounds and returns the final round's
text. -/
theorem call_with_tools_spec_witness :
    callWithToolsLoop demoBackendEnd emptyRegistry 1 [] [] = "hi" ∧
    call_with_tools demoBackendTool emptyRegistry [] = "t" := by
  constructor
  · have h := (call_with_tools_spec demoBackendEnd emptyRegistry).1 [] [] 0
      (Or.inr rfl)
    simpa [demoBackendEnd, textsOf, joinSep] using h
  · have h := (call_with_tools_spec demoBackendTool emptyRegistry).2 []
      (by intro j hj
          simp [demoBackendTool, endsRound, toolUsesOf])
    simpa [demoBackendTool, textsOf, joinSep] using h

/-! ## Retry harness (`retry.py`, `retry_with_backoff`) -/

/-- How a `retry_with_backoff` call ends: the value, a non-retriable
exception propagated as-is, `MaxRetriesExceeded(last_error, attempts)`, or
the dead post-loop `assert` (unreachable from the entry point). -/
inductive RetryOutcome (E A : Type) where
  | ok (a : A)
  | raised (e : E)
  | maxRetriesExceeded (last : E) (attempts : Nat)
  | assertFailed
deriving DecidableEq

/-- Does this attempt outcome raise a retriable exception? -/
def errRetriable (retriable : E → Bool) : Except E A → Bool
  | .error e => retriable e
  | .ok _ => false

/-- `min(backoff_base * (2 ** attempt), backoff_max)`: the delay slept
before the retry that follows failed attempt `attempt`.  Floats are
modelled as rationals. -/
def backoffDelay (base cap : ℚ) (attempt : Nat) : ℚ :=
  min (base * 2 ^ attempt) cap

/-- The `for attempt in range(max_retries + 1)` loop.  `attempts n` is the
outcome of the n-th invocation of `fn`; `lastErr` is the `last_error`
variable; `fuel` is the number of loop iterations left (the entry point
passes `max_retries + 1`).  Returns the outcome and the list of slept
delays in order. -/
def retryGo (attempts : Nat → Except E A) (retriable : E → Bool)
    (max_retries : Nat) (base cap : ℚ) :
    Option E → Nat → Nat → RetryOutcome E A × List ℚ
  | lastErr, _, 0 =>
      (match lastErr with
       | some e => (.maxRetriesExceeded e (max_retries + 1), [])
       | none => (.assertFailed, []))
  | _, attempt, fuel+1 =>
      match attempts attempt with
      | .ok a => (.ok a, [])
      | .error e =>
          if retriable e = false then (.raised e, [])
          else if max_retries ≤ attempt then (.maxRetriesExceeded e (attempt + 1), [])
          else
            let p := retryGo attempts retriable max_retries base cap
              (some e) (attempt + 1) fuel
            (p.1, backoffDelay base cap attempt :: p.2)

/-- `retry_with_backoff` of `retry.py`. -/
def retry_with_backoff (attempts : Nat → Except E A) (retriable : E → Bool)
    (max_retries : Nat) (base cap : ℚ) : RetryOutcome E A × List ℚ :=
  retryGo attempts retriable max_retries base cap none 0 (max_retries + 1)

theorem retryGo_lastErr_irrel (attempts : Nat → Except E A)
    (retriable : E → Bool) (maxR : Nat) (base cap : ℚ)
    (f attempt : Nat) (l₁ l₂ : Option E) :
    retryGo attempts retriable maxR base cap l₁ attempt (f+1) =
      retryGo attempts retriable maxR base cap l₂ attempt (f+1) := rfl

theorem retryGo_skip (attempts : Nat → Except E A) (retriable : E → Bool)
    (maxR : Nat) (base cap : ℚ) :
    ∀ (k attempt : Nat) (lastErr : Option E),
      attempt + k ≤ maxR →
      (∀ j, j < k → errRetriable retriable (attempts (attempt + j)) = true) →
      retryGo attempts retriable maxR base cap lastErr attempt (maxR + 1 - attempt) =
        ((retryGo attempts retriable maxR base cap none (attempt + k)
            (maxR + 1 - (attempt + k))).1,
         (List.range k).map (fun j => backoffDelay base cap (attempt + j))
           ++ (retryGo attempts retriable maxR base cap none (attempt + k)
                (maxR + 1 - (attempt + k))).2) := by
  intro k
  induction k with
  | zero =>
    intro attempt lastErr hle hall
    simp only [Nat.add_zero, List.range_zero, List.map_nil, List.nil_append]
    have hf : maxR + 1 - attempt = (maxR - attempt) + 1 := by omega
    rw [hf, retryGo_lastErr_irrel attempts retriable maxR base cap
      (maxR - attempt) attempt lastErr none]
  | succ k ih =>
    intro attempt lastErr hle hall
    have h0 := hall 0 (by omega)
    rw [show attempt + 0 = attempt from rfl] at h0
    cases he : attempts attempt with
    | ok a =>
      rw [he] at h0
      simp [errRetriable] at h0
    | error e =>
      rw [he] at h0
      have hr : retriable e = true := by simpa [errRetriable] using h0
      have hf : maxR + 1 - attempt = (maxR - attempt) + 1 := by omega
      rw [hf]
      simp only [retryGo, he]
      rw [hr]
      rw [if_neg (by simp)]
      rw [if_neg (show ¬ (maxR ≤ attempt) from by omega)]
      have harg : maxR - attempt = maxR + 1 - (attempt + 1) := by omega
      rw [harg]
      have hall' : ∀ j, j < k →
          errRetriable retriable (attempts (attempt + 1 + j)) = true := by
        intro j hj
        have hh := hall (j+1) (by omega)
        rw [show attempt + (j + 1) = attempt + 1 + j from by omega] at hh
        exact hh
      rw [ih (attempt + 1) (some e) (by omega) hall']
      have hlist : (List.range (k+1)).map (fun j => backoffDelay base cap (attempt + j)) =
          backoffDelay base cap attempt ::
            (List.range k).map (fun j => backoffDelay base cap (attempt + 1 + j)) := by
        rw [List.range_succ_eq_map, List.map_cons, List.map_map]
        have hfun : ((fun j => backoffDelay base cap (attempt + j)) ∘ (· + 1)) =
            (fun j => backoffDelay base cap (attempt + 1 + j)) := by
          funext j
          show backoffDelay base cap (attempt + (j + 1)) = _
          congr 1
          omega
        rw [hfun]
        simp
      have hshift : attempt + 1 + k = attempt + (k + 1) := by omega
      rw [hshift, hlist]
      simp [List.cons_append]

/-- Claim C5: for the retry harness, (i) a non-retriable exception at
attempt `k` (after `k` retriable failures) propagates immediately, with the
slept delays being `min(base·2^i, cap)` for `i = 0..k-1`; (ii) if `fn`
fails `k ≤ max_retries` times retriably then succeeds, the value is
returned after those same delays; (iii) if every one of the
`max_retries + 1` attempts fails retriably, `MaxRetriesExceeded` carrying
the attempt count `max_retries + 1` and the last exception is raised. -/
theorem retry_with_backoff_spec (attempts : Nat → Except E A)
    (retriable : E → Bool) (maxR : Nat) (base cap : ℚ) :
    (∀ (k : Nat) (e : E), k ≤ maxR →
      (∀ j, j < k → errRetriable retriable (attempts j) = true) →
      attempts k = .error e → retriable e = false →
      retry_with_backoff attempts retriable maxR base cap =
        (.raised e, (List.range k).map (backoffDelay base cap))) ∧
    (∀ (k : Nat) (v : A), k ≤ maxR →
      (∀ j, j < k → errRetriable retriable (attempts j) = true) →
      attempts k = .ok v →
      retry_with_backoff attempts retriable maxR base cap =
        (.ok v, (List.range k).map (backoffDelay base cap))) ∧
    (∀ (e : E),
      (∀ j, j ≤ maxR → errRetriable retriable (attempts j) = true) →
      attempts maxR = .error e →
      retry_with_backoff attempts retriable maxR base cap =
        (.maxRetriesExceeded e (maxR + 1), (List.range maxR).map (backoffDelay base cap))) := by
  refine ⟨?_, ?_, ?_⟩
  · intro k e hk hall herr hnr
    have hskip := retryGo_skip attempts retriable maxR base cap k 0 none
      (by omega) (by intro j hj; simpa using hall j hj)
    simp only [Nat.sub_zero, Nat.zero_add] at hskip
    rw [retry_with_backoff, hskip]
    have hf : maxR + 1 - k = (maxR - k) + 1 := by omega
    rw [hf]
    simp only [retryGo, herr]
    rw [hnr]
    rw [if_pos rfl]
    simp
  · intro k v hk hall hok
    have hskip := retryGo_skip attempts retriable maxR base cap k 0 none
      (by omega) (by intro j hj; simpa using hall j hj)
    simp only [Nat.sub_zero, Nat.zero_add] at hskip
    rw [retry_with_backoff, hskip]
    have hf : maxR + 1 - k = (maxR - k) + 1 := by omega
    rw [hf]
    simp only [retryGo, hok]
    simp
  · intro e hall herr
    have hskip := retryGo_skip attempts retriable maxR base cap maxR 0 none
      (by omega) (by intro j hj; simpa using hall j (by omega))
    simp only [Nat.sub_zero, Nat.zero_add] at hskip
    rw [retry_with_backoff, hskip]
    have hf : maxR + 1 - maxR = 1 := by omega
    rw [hf]
    simp only [retryGo, herr]
    have hr : retriable e = true := by
      have hh := hall maxR (by omega)
      rw [herr] at hh
      simpa [errRetriable] using hh
    rw [hr]
    rw [if_neg (by simp)]
    rw [if_pos (Nat.le_refl maxR)]
    simp

/-- Retriable predicate for the C5 witness: `"r"` is retriable. -/
def demoRetriable : String → Bool := fun e => e == "r"

/-- Fails retriably twice, then succeeds. -/
def demoAttemptsOk : Nat → Except String Nat := fun n =>
  match n with
  | 0 => .error "r"
  | 1 => .error "r"
  | _ => .ok 42

/-- Fails retriably once, then raises a non-retriable error. -/
def demoAttemptsRaise : Nat → Except String Nat := fun n =>
  match n with
  | 0 => .error "r"
  | _ => .error "n"

/-- Always fails retriably. -/
def demoAttemptsFail : Nat → Except String Nat := fun _ => .error "r"

/-- Witness for C5 with `max_retries = 2`, `base = 1`, `cap = 60`: the
eventual value is returned after sleeps `[1, 2]`; a non-retriable error
propagates after `[1]`; exhaustion raises `MaxRetriesExceeded(last, 3)`
after `[1, 2]`. -/
theorem retry_with_backoff_spec_witness :
    retry_with_backoff demoAttemptsOk demoRetriable 2 1 60 =
      (.ok 42, [1, 2]) ∧
    retry_with_backoff demoAttemptsRaise demoRetriable 2 1 60 =
      (.raised "n", [1]) ∧
    retry_with_backoff demoAttemptsFail demoRetriable 2 1 60 =
      (.maxRetriesExceeded "r" 3, [1, 2]) := by
  have h0 : backoffDelay 1 60 0 = 1 := by
    unfold backoffDelay
    rw [min_eq_left (by norm_num : (1:ℚ) * 2 ^ 0 ≤ 60)]
    norm_num
  have h1 : backoffDelay 1 60 1 = 2 := by
    unfold backoffDelay
    rw [min_eq_left (by norm_num : (1:ℚ) * 2 ^ 1 ≤ 60)]
    norm_num
  refine ⟨?_, ?_, ?_⟩
  · rw [(retry_with_backoff_spec demoAttemptsOk demoRetriable 2 1 60).2.1 2 42
      (by omega) (by decide) rfl]
    simp [List.range_succ, h0, h1]
  · rw [(retry_with_backoff_spec demoAttemptsRaise demoRetriable 2 1 60).1 1 "n"
      (by omega) (by decide) rfl rfl]
    simp [List.range_succ, h0]
  · rw [(retry_with_backoff_spec demoAttemptsFail demoRetriable 2 1 60).2.2 "r"
      (by decide) rfl]
    simp [List.range_succ, h0, h1]

/-! ## Response chunking (`bot.py`, `split_message`) -/

/-- Does `sub` occur in `s` starting at index `i` (entirely inside `s`)? -/
def matchesAt (s sub : List Char) (i : Nat) : Prop :=
  (s.drop i).take sub.length = sub

instance (s sub : List Char) (i : Nat) : Decidable (matchesAt s sub i) := by
  unfold matchesAt
  infer_instance

/-- Scan indices `i, i-1, ..., 0` for the rightmost occurrence. -/
def rfindFrom (s sub : List Char) : Nat → Option Nat
  | 0 => if matchesAt s sub 0 then some 0 else none
  | i+1 => if matchesAt s sub (i+1) then some (i+1) else rfindFrom s sub i

/-- Python `s.rfind(sub, 0, stop)` (with the `-1` failure encoded as
`none`): the largest `i` with `i + len(sub) ≤ min(stop, len(s))` at which
`sub` occurs. -/
def rfind (s sub : List Char) (stop : Nat) : Option Nat :=
  if sub.length ≤ min stop s.length then
    rfindFrom s sub (min stop s.length - sub.length)
  else none

/-- `text[idx:].lstrip("\n")`'s stripping part. -/
def lstripNl (l : List Char) : List Char :=
  l.dropWhile (fun c => c = '\n')

/-- The split-point search of `split_message`: rightmost `"\n\n"` in the
window, else rightmost `"\n"`, else rightmost `" "`, else a hard cut at
`max_length`. -/
def splitIdx (text : List Char) (maxLen : Nat) : Nat :=
  match rfind text ['\n', '\n'] maxLen with
  | some i => i
  | none =>
      match rfind text ['\n'] maxLen with
      | some i => i
      | none =>
          match rfind text [' '] maxLen with
          | some i => i
          | none => maxLen

/-- The `while text:` loop of `split_message`, with fuel; `none` means the
loop has not terminated within `fuel` iterations (for the divergence
theorem below, `none` for every fuel). -/
def splitLoop (maxLen : Nat) : Nat → List Char → Option (List (List Char))
  | 0, _ => none
  | fuel+1, text =>
      if text.isEmpty then some []
      else if text.length ≤ maxLen then some [text]
      else
        (splitLoop maxLen fuel (lstripNl (text.drop (splitIdx text maxLen)))).map
          (fun chunks => text.take (splitIdx text maxLen) :: chunks)

/-- `split_message` of `bot.py` (text as a character list). -/
def split_message (text : List Char) (maxLen : Nat) (fuel : Nat) :
    Option (List (List Char)) :=
  if text.length ≤ maxLen then some [text] else splitLoop maxLen fuel text

/-- The failing input of C3: a space followed by 4096 `a`s (length 4097,
above the limit, whose only split point in the window is the space at
index 0). -/
def splitBadInput : List Char := ' ' :: List.replicate 4096 'a'

theorem rfindFrom_eq_none (s sub : List Char) :
    ∀ i, (∀ j, j ≤ i → ¬ matchesAt s sub j) → rfindFrom s sub i = none := by
  intro i
  induction i with
  | zero =>
    intro h
    simp only [rfindFrom]
    rw [if_neg (h 0 (Nat.le_refl 0))]
  | succ k ih =>
    intro h
    simp only [rfindFrom]
    rw [if_neg (h (k+1) (Nat.le_refl _))]
    exact ih (fun j hj => h j (by omega))

theorem rfindFrom_eq_zero (s sub : List Char) :
    ∀ i, matchesAt s sub 0 → (∀ j, 1 ≤ j → j ≤ i → ¬ matchesAt s sub j) →
      rfindFrom s sub i = some 0 := by
  intro i
  induction i with
  | zero =>
    intro h0 _
    simp only [rfindFrom]
    rw [if_pos h0]
  | succ k ih =>
    intro h0 h
    simp only [rfindFrom]
    rw [if_neg (h (k+1) (by omega) (Nat.le_refl _))]
    exact ih h0 (fun j h1 h2 => h j h1 (by omega))

theorem replicate_take_ne_cons (m k : Nat) (c : Char) (l : List Char)
    (hc : ¬ c = 'a') : ¬ (List.replicate m 'a').take k = c :: l := by
  intro h
  cases m with
  | zero => simp at h
  | succ m' =>
    cases k with
    | zero => simp at h
    | succ k' =>
      rw [List.replicate_succ, List.take_succ_cons] at h
      have := List.head_eq_of_cons_eq h
      exact hc this.symm

theorem splitBad_no_nl2 (i : Nat) : ¬ matchesAt splitBadInput ['\n', '\n'] i := by
  unfold matchesAt splitBadInput
  cases i with
  | zero =>
    intro h
    rw [List.drop_zero] at h
    have h2 : List.take 2 (' ' :: List.replicate 4096 'a') = ['\n', '\n'] := h
    rw [List.take_succ_cons] at h2
    exact absurd (List.head_eq_of_cons_eq h2) (by decide)
  | succ j =>
    rw [List.drop_succ_cons, List.drop_replicate]
    exact replicate_take_ne_cons _ _ _ _ (by decide)

theorem splitBad_no_nl (i : Nat) : ¬ matchesAt splitBadInput ['\n'] i := by
  unfold matchesAt splitBadInput
  cases i with
  | zero =>
    intro h
    rw [List.drop_zero] at h
    have h2 : List.take 1 (' ' :: List.replicate 4096 'a') = ['\n'] := h
    rw [List.take_succ_cons] at h2
    exact absurd (List.head_eq_of_cons_eq h2) (by decide)
  | succ j =>
    rw [List.drop_succ_cons, List.drop_replicate]
    exact replicate_take_ne_cons _ _ _ _ (by decide)

theorem splitBad_space_iff (i : Nat) :
    matchesAt splitBadInput [' '] i ↔ i = 0 := by
  constructor
  · intro h
    unfold matchesAt splitBadInput at h
    cases i with
    | zero => rfl
    | succ j =>
      rw [List.drop_succ_cons, List.drop_replicate] at h
      exact absurd h (replicate_take_ne_cons _ _ _ _ (by decide))
  · intro h
    subst h
    unfold matchesAt splitBadInput
    rfl

theorem splitBadInput_length : splitBadInput.length = 4097 := by
  unfold splitBadInput
  rw [List.length_cons, List.length_replicate]

theorem splitBad_min : min 4096 splitBadInput.length = 4096 := by
  rw [splitBadInput_length]
  omega

theorem splitBad_rfind_nl2 : rfind splitBadInput ['\n', '\n'] 4096 = none := by
  have hcond : (['\n', '\n'] : List Char).length ≤ min 4096 splitBadInput.length := by
    rw [splitBad_min]
    norm_num
  unfold rfind
  rw [if_pos hcond]
  exact rfindFrom_eq_none _ _ _ (fun j _ => splitBad_no_nl2 j)

theorem splitBad_rfind_nl : rfind splitBadInput ['\n'] 4096 = none := by
  have hcond : (['\n'] : List Char).length ≤ min 4096 splitBadInput.length := by
    rw [splitBad_min]
    norm_num
  unfold rfind
  rw [if_pos hcond]
  exact rfindFrom_eq_none _ _ _ (fun j _ => splitBad_no_nl j)

theorem splitBad_rfind_space : rfind splitBadInput [' '] 4096 = some 0 := by
  have hcond : ([' '] : List Char).length ≤ min 4096 splitBadInput.length := by
    rw [splitBad_min]
    norm_num
  unfold rfind
  rw [if_pos hcond]
  refine rfindFrom_eq_zero _ _ _ ((splitBad_space_iff 0).2 rfl) ?_
  intro j hj _ hm
  have hj0 := (splitBad_space_iff j).1 hm
  omega

theorem splitIdx_eq (text : List Char) (maxLen i : Nat)
    (h2 : rfind text ['\n', '\n'] maxLen = none)
    (h1 : rfind text ['\n'] maxLen = none)
    (h0 : rfind text [' '] maxLen = some i) :
    splitIdx text maxLen = i := by
  unfold splitIdx
  rw [h2, h1, h0]

theorem splitBad_idx : splitIdx splitBadInput 4096 = 0 :=
  splitIdx_eq splitBadInput 4096 0 splitBad_rfind_nl2 splitBad_rfind_nl
    splitBad_rfind_space

theorem splitBad_strip : lstripNl splitBadInput = splitBadInput := by
  unfold lstripNl splitBadInput
  rfl

theorem splitLoop_step (maxLen fuel : Nat) (text : List Char)
    (h1 : ¬ text.isEmpty = true) (h2 : ¬ text.length ≤ maxLen) :
    splitLoop maxLen (fuel+1) text =
      (splitLoop maxLen fuel (lstripNl (text.drop (splitIdx text maxLen)))).map
        (fun chunks => text.take (splitIdx text maxLen) :: chunks) := by
  simp only [splitLoop]
  rw [if_neg h1, if_neg h2]

theorem split_message_eq_loop (text : List Char) (maxLen fuel : Nat)
    (h : ¬ text.length ≤ maxLen) :
    split_message text maxLen fuel = splitLoop maxLen fuel text := by
  unfold split_message
  rw [if_neg h]

/-- Claim C3 (code bug): on the input `" " + "a"*4096` the `while` loop of
`split_message` never terminates — the only split point in the window is
the space at index 0, so the loop appends an empty chunk and leaves `text`
unchanged (`lstrip("\n")` strips nothing) — hence no chunk list satisfying
the claimed properties is ever returned: the fueled model returns `none`
for every fuel. -/
theorem split_message_diverges :
    ∀ fuel : Nat, split_message splitBadInput 4096 fuel = none := by
  have hlen : ¬ splitBadInput.length ≤ 4096 := by
    rw [splitBadInput_length]
    omega
  have hne : ¬ splitBadInput.isEmpty = true := by decide
  have hloop : ∀ fuel : Nat, splitLoop 4096 fuel splitBadInput = none := by
    intro fuel
    induction fuel with
    | zero => rfl
    | succ f ih =>
      rw [splitLoop_step 4096 f splitBadInput hne hlen]
      rw [splitBad_idx, List.drop_zero, splitBad_strip, ih]
      rfl
  intro fuel
  rw [split_message_eq_loop splitBadInput 4096 fuel hlen]
  exact hloop fuel

/-! ## Orchestrator failure handling (`main.py`, `_processing_loop`, and
`processor.py`, `_process_impl`) -/

/-- Two lowercase hex digits. -/
def hex2 (n : Nat) : List Char :=
  [hexDigitChar (n / 16 % 16), hexDigitChar (n % 16)]

/-- Eight lowercase hex digits (for `\UXXXXXXXX`). -/
def hex8 (n : Nat) : List Char :=
  hex4 (n / 65536) ++ hex4 (n % 65536)

/-- CPython's printability test used by `repr`.  Exact on code points up
to 0xFF, where the only non-printables are 0x00-0x1f, 0x7f-0xa0 and 0xad;
code points from 0x100 up are treated as printable here — CPython decides
them from the Unicode category database, which is outside this model, so
every statement below about blob values restricts texts to code points
≤ 0xFF. -/
def reprPrintable (c : Char) : Bool :=
  if c.toNat < 32 then false
  else if c.toNat < 127 then true
  else if c.toNat < 161 then false
  else if c.toNat = 173 then false
  else true

/-- One character of CPython's `repr` of a string, given the chosen quote
character: the quote in use and the backslash are backslash-escaped; tab,
newline and carriage return use their named escapes; other non-printable
characters become `\xXX`, `\uXXXX` or `\UXXXXXXXX`; printable characters
are copied. -/
def reprEscChar (quote c : Char) : List Char :=
  if c = quote ∨ c = '\\' then ['\\', c]
  else if c = '\t' then ['\\', 't']
  else if c = '\n' then ['\\', 'n']
  else if c = '\r' then ['\\', 'r']
  else if c.toNat < 32 ∨ c.toNat = 127 then '\\' :: 'x' :: hex2 c.toNat
  else if reprPrintable c then [c]
  else if c.toNat ≤ 255 then '\\' :: 'x' :: hex2 c.toNat
  else if c.toNat ≤ 65535 then '\\' :: 'u' :: hex4 c.toNat
  else '\\' :: 'U' :: hex8 c.toNat

/-- Python `repr` of a string as it appears inside `str(list)`: wrapped in
single quotes — or in double quotes when the string contains a single
quote but no double quote — with each character escaped by `reprEscChar`. -/
def pyReprStr (s : String) : String :=
  let squote := s.data.any (fun c => c == '\x27')
  let dquote := s.data.any (fun c => c == '"')
  let quote := if squote && !dquote then '"' else '\x27'
  ⟨quote :: (s.data.flatMap (reprEscChar quote) ++ [quote])⟩

/-- Python `str` of a list of strings (as interpolated by the f-string in
`_process_impl`). -/
def pyReprStrList (ts : List String) : String :=
  "[" ++ joinSep ", " (ts.map pyReprStr) ++ "]"

/-- The fallback blob upserted by `_process_impl` on failure:
`f"Processing failed for messages: {[e.get('text', '') for e in events]}"`. -/
def failureBlob (events : List Event) : String :=
  "Processing failed for messages: " ++ pyReprStrList (events.map (fun e => e.text))

/-- The fixed user-visible apology sent by `_processing_loop` on the third
consecutive failure. -/
def APOLOGY : String := "I\x27m having trouble right now, please try again later."

/-- The per-chat orchestrator state across one processing cycle: the
durable store, the chat's buffer, the `consecutive_failures` counter, the
texts handed to `send_response` in order, the seconds slept, and whether
the task broke out of its loop. -/
structure OrchState where
  store : Store
  buffer : MessageBuffer Event
  failures : Nat
  sent : List String
  sleeps : List Nat
  exited : Bool

/-- What one `process()` call did: succeeded with a response (the clock
values `elapsed_ms` and `created_at` made explicit), or raised. -/
inductive CycleOutcome where
  | ok (response : String) (elapsed_ms : Int) (created_at : String)
  | fail

/-- One iteration of `_processing_loop` after `events ← wait_and_drain()`:
on success `_process_impl` persists the turn (joined user texts), clears
the fallback, sends the response, and the loop resets the counter; on
failure `_process_impl` upserts the failure blob and re-raises, and the
loop increments the counter, then either sends the fixed apology and exits
(counter ≥ 3) or re-appends the events and sleeps 30 s.  (Chunked sending
is modelled as one `sent` entry; chunking itself is `split_message`'s
business.) -/
def cycle (chat_id : String) (st : OrchState) (events : List Event) :
    CycleOutcome → OrchState
  | .ok resp elapsed created =>
      let st1 := save_turn st.store chat_id
        (joinSep "\n" (events.map (fun e => e.text))) resp (some elapsed) created
      let st2 := clear_fallback st1 chat_id
      { st with store := st2, failures := 0, sent := st.sent ++ [resp] }
  | .fail =>
      let st1 := save_fallback st.store chat_id (failureBlob events)
      let f := st.failures + 1
      if 3 ≤ f then
        { st with
          store := st1
          failures := f
          sent := st.sent ++ [APOLOGY]
          exited := true }
      else
        { st with
          store := st1
          failures := f
          buffer := st.buffer.append events
          sleeps := st.sleeps ++ [30] }

theorem joinSep_mem_infix (sep : String) :
    ∀ (l : List String) (x : String), x ∈ l →
      List.IsInfix x.data (joinSep sep l).data := by
  intro l
  induction l with
  | nil => intro x hx; exact absurd hx (List.not_mem_nil x)
  | cons y ys ih =>
    intro x hx
    cases ys with
    | nil =>
      have hxy : x = y := by
        rcases List.mem_cons.1 hx with h | h
        · exact h
        · exact absurd h (List.not_mem_nil x)
      subst hxy
      exact List.infix_refl _
    | cons z zs =>
      rcases List.mem_cons.1 hx with h | h
      · subst h
        refine ⟨[], (sep ++ joinSep sep (z :: zs)).data, ?_⟩
        show [] ++ x.data ++ (sep ++ joinSep sep (z :: zs)).data
          = (x ++ sep ++ joinSep sep (z :: zs)).data
        rw [List.nil_append, String.data_append, String.data_append,
          String.data_append, List.append_assoc]
      · obtain ⟨s, t, hst⟩ := ih x h
        refine ⟨(y ++ sep).data ++ s, t, ?_⟩
        show (y ++ sep).data ++ s ++ x.data ++ t
          = (y ++ sep ++ joinSep sep (z :: zs)).data
        rw [String.data_append (y ++ sep), ← hst]
        simp [List.append_assoc]

theorem flatMap_id_of_singleton (f : Char → List Char) :
    ∀ (l : List Char), (∀ c ∈ l, f c = [c]) → l.flatMap f = l := by
  intro l
  induction l with
  | nil => intro _; rfl
  | cons c cs ih =>
    intro h
    rw [List.flatMap_cons, h c (List.mem_cons_self c cs),
      ih (fun d hd => h d (List.mem_cons_of_mem c hd))]
    rfl

theorem reprEscChar_plain (c : Char) (h1 : 32 ≤ c.toNat) (h2 : c.toNat ≤ 126)
    (h3 : ¬ c = '\\') (h4 : ¬ c = '\x27') :
    reprEscChar '\x27' c = [c] := by
  have ht : ¬ c = '\t' := fun hh => by rw [hh] at h1; exact absurd h1 (by decide)
  have hn : ¬ c = '\n' := fun hh => by rw [hh] at h1; exact absurd h1 (by decide)
  have hr : ¬ c = '\r' := fun hh => by rw [hh] at h1; exact absurd h1 (by decide)
  have hx : ¬ (c.toNat < 32 ∨ c.toNat = 127) := by omega
  have hp : reprPrintable c = true := by
    unfold reprPrintable
    rw [if_neg (by omega : ¬ c.toNat < 32), if_pos (by omega : c.toNat < 127)]
  unfold reprEscChar
  rw [if_neg (fun hor => hor.elim h4 h3), if_neg ht, if_neg hn, if_neg hr,
    if_neg hx, hp, if_pos rfl]

theorem pyReprStr_plain (s : String)
    (h : ∀ c ∈ s.data,
      32 ≤ c.toNat ∧ c.toNat ≤ 126 ∧ ¬ c = '\\' ∧ ¬ c = '\x27') :
    (pyReprStr s).data = '\x27' :: (s.data ++ ['\x27']) := by
  have hq : s.data.any (fun c => c == '\x27') = false := by
    rw [List.any_eq_false]
    intro c hc
    simpa using (h c hc).2.2.2
  have hquote : (if (s.data.any (fun c => c == '\x27')
        && !(s.data.any (fun c => c == '"'))) = true
      then '"' else '\x27') = '\x27' := by
    rw [hq]
    rfl
  have hesc : s.data.flatMap (reprEscChar '\x27') = s.data :=
    flatMap_id_of_singleton _ s.data (fun c hc => by
      obtain ⟨h1, h2, h3, h4⟩ := h c hc
      exact reprEscChar_plain c h1 h2 h3 h4)
  simp only [pyReprStr, hquote, hesc]

theorem failureBlob_contains (events : List Event) (e : Event)
    (he : e ∈ events)
    (h : ∀ c ∈ e.text.data,
      32 ≤ c.toNat ∧ c.toNat ≤ 126 ∧ ¬ c = '\\' ∧ ¬ c = '\x27') :
    List.IsInfix e.text.data (failureBlob events).data := by
  have h1 : List.IsInfix e.text.data (pyReprStr e.text).data := by
    rw [pyReprStr_plain e.text h]
    exact ⟨['\x27'], ['\x27'], rfl⟩
  have h2 : pyReprStr e.text ∈ (events.map (fun ev => ev.text)).map pyReprStr :=
    List.mem_map_of_mem pyReprStr (List.mem_map_of_mem (fun ev => ev.text) he)
  have h3 := joinSep_mem_infix ", " ((events.map (fun ev => ev.text)).map pyReprStr)
    (pyReprStr e.text) h2
  have h4 : List.IsInfix (pyReprStr e.text).data (failureBlob events).data := by
    obtain ⟨s, t, hst⟩ := h3
    unfold failureBlob pyReprStrList
    refine ⟨("Processing failed for messages: " : String).data
        ++ (("[" : String).data ++ s),
      t ++ ("]" : String).data, ?_⟩
    rw [String.data_append, String.data_append, String.data_append, ← hst]
    simp [List.append_assoc]
  exact h1.trans h4

/-- Counterexample to the raw-text clause of C9: Python repr escapes
control characters, so for the reachable event text "a\nb" the stored
blob holds a backslash followed by n, not the raw newline — the raw text
is not a substring of the blob the program writes. -/
theorem failureBlob_not_raw :
    ¬ List.IsInfix ("a\nb" : String).data
      (failureBlob [⟨"a\nb", "A", "t"⟩]).data := by decide

/-- Claim C9 (amended): on a processing-cycle failure the orchestrator
upserts the failure blob — the batch event texts rendered by Python repr
inside str(list), in which a text appears verbatim exactly when repr
escapes nothing in it, i.e. printable-ASCII text with no backslash and no
single quote — and increments the consecutive-failure counter; while the
counter stays below 3 nothing is sent to the user, the events are
re-appended to the buffer and 30 seconds are slept; when the counter
reaches 3 the fixed apology is sent and the task exits; on any success
the counter resets to 0 (and the response is sent after the turn is
persisted and the fallback cleared).  The two blob-value equations are
stated for texts of code points ≤ 0xFF, where the repr model is exact
(above 0xFF CPython consults the Unicode printability database, which the
model conservatively treats as printable). -/
theorem processing_loop_cycle_spec (chat_id : String) (st : OrchState)
    (events : List Event) (resp created : String) (elapsed : Int) :
    (st.failures + 1 < 3 →
      (cycle chat_id st events .fail).sent = st.sent ∧
      (cycle chat_id st events .fail).buffer = st.buffer.append events ∧
      (cycle chat_id st events .fail).sleeps = st.sleeps ++ [30] ∧
      (cycle chat_id st events .fail).failures = st.failures + 1 ∧
      (cycle chat_id st events .fail).exited = st.exited ∧
      ((∀ e ∈ events, ∀ c ∈ e.text.data, c.toNat ≤ 255) →
        (cycle chat_id st events .fail).store.fallback chat_id
          = some (failureBlob events))) ∧
    (3 ≤ st.failures + 1 →
      (cycle chat_id st events .fail).sent = st.sent ++ [APOLOGY] ∧
      (cycle chat_id st events .fail).exited = true ∧
      (cycle chat_id st events .fail).failures = st.failures + 1 ∧
      ((∀ e ∈ events, ∀ c ∈ e.text.data, c.toNat ≤ 255) →
        (cycle chat_id st events .fail).store.fallback chat_id
          = some (failureBlob events))) ∧
    ((cycle chat_id st events (.ok resp elapsed created)).failures = 0 ∧
     (cycle chat_id st events (.ok resp elapsed created)).sent = st.sent ++ [resp] ∧
     (cycle chat_id st events (.ok resp elapsed created)).store.fallback chat_id
       = none) ∧
    (∀ e ∈ events, (∀ c ∈ e.text.data,
        32 ≤ c.toNat ∧ c.toNat ≤ 126 ∧ ¬ c = '\\' ∧ ¬ c = '\x27') →
      List.IsInfix e.text.data (failureBlob events).data) := by
  refine ⟨?_, ?_, ?_, fun e he h => failureBlob_contains events e he h⟩
  · intro hlt
    have hcond : ¬ (3 ≤ st.failures + 1) := by omega
    simp only [cycle]
    rw [if_neg hcond]
    refine ⟨rfl, rfl, rfl, rfl, rfl, fun _ => ?_⟩
    show (save_fallback st.store chat_id (failureBlob events)).fallback chat_id
      = some (failureBlob events)
    simp [save_fallback]
  · intro hge
    simp only [cycle]
    rw [if_pos hge]
    refine ⟨rfl, rfl, rfl, fun _ => ?_⟩
    show (save_fallback st.store chat_id (failureBlob events)).fallback chat_id
      = some (failureBlob events)
    simp [save_fallback]
  · refine ⟨rfl, rfl, ?_⟩
    show (clear_fallback (save_turn st.store chat_id
        (joinSep "\n" (events.map (fun e => e.text))) resp (some elapsed) created)
        chat_id).fallback chat_id = none
    simp [clear_fallback, save_turn]

/-- Witness for C9 at concrete states: failure 1 is silent, re-queues and
stores the repr blob of the Latin-1 text; failure 3 sends the apology and
exits; success resets the counter; the plain-ASCII text appears verbatim
in the blob. -/
theorem processing_loop_cycle_spec_witness :
    (cycle "7" ⟨⟨[], fun _ => none⟩, ⟨[], false⟩, 0, [], [], false⟩
        [⟨"hey", "A", "t"⟩] .fail).sent = [] ∧
    (cycle "7" ⟨⟨[], fun _ => none⟩, ⟨[], false⟩, 0, [], [], false⟩
        [⟨"hey", "A", "t"⟩] .fail).store.fallback "7"
      = some (failureBlob [⟨"hey", "A", "t"⟩]) ∧
    (cycle "7" ⟨⟨[], fun _ => none⟩, ⟨[], false⟩, 2, [], [], false⟩
        [⟨"hey", "A", "t"⟩] .fail).sent = [APOLOGY] ∧
    (cycle "7" ⟨⟨[], fun _ => none⟩, ⟨[], false⟩, 2, [], [], false⟩
        [⟨"hey", "A", "t"⟩] .fail).exited = true ∧
    (cycle "7" ⟨⟨[], fun _ => none⟩, ⟨[], false⟩, 2, [], [], false⟩
        [⟨"hey", "A", "t"⟩] (.ok "hello" 5 "t2")).failures = 0 ∧
    List.IsInfix ("hey" : String).data
      (failureBlob [⟨"hey", "A", "t"⟩]).data := by
  have h1 := processing_loop_cycle_spec "7"
    ⟨⟨[], fun _ => none⟩, ⟨[], false⟩, 0, [], [], false⟩
    [⟨"hey", "A", "t"⟩] "hello" "t2" 5
  have h2 := processing_loop_cycle_spec "7"
    ⟨⟨[], fun _ => none⟩, ⟨[], false⟩, 2, [], [], false⟩
    [⟨"hey", "A", "t"⟩] "hello" "t2" 5
  have ha : (0 : Nat) + 1 < 3 := by omega
  have hb : 3 ≤ (2 : Nat) + 1 := by omega
  exact ⟨(h1.1 ha).1, (h1.1 ha).2.2.2.2.2 (by decide), (h2.2.1 hb).1,
    (h2.2.1 hb).2.1, h2.2.2.1.1,
    h2.2.2.2 ⟨"hey", "A", "t"⟩ (by simp) (by decide)⟩

end BuddyBot
